import Mathlib

/-!
Verification of the 2.5D labeling hook (`useLabelingTwoFiveD.ts`) and its
vertex-membership worker (`labelColorWorker.ts`).

Shallow embedding conventions:
* JavaScript numbers are modelled as rationals (`ℚ`); arithmetic in the
  source is plain field arithmetic, so the rational model is exact.
* Vue refs that may be unset (`mesh.value`, `boundingBox.value`, ...) are
  modelled as `Option` fields or `Bool` presence flags of a state record.
* A JavaScript expression `arr[i] || 0` on a Float32Array is modelled by
  `List.getD i 0`: an out-of-range read yields `undefined`, which `|| 0`
  turns into `0`; an in-range falsy read (the value `0`) is also `0`.
* Hex color strings are represented directly by their parsed rgb triple,
  so `hexToRgb` is the identity on that representation.
-/

namespace TwoFiveD

/-- Affine coordinate calibration `{offsetX, offsetY, scaleX, scaleY, enabled}`. -/
structure Calibration where
  offsetX : ℚ
  offsetY : ℚ
  scaleX : ℚ
  scaleY : ℚ
  enabled : Bool
deriving DecidableEq, Repr

/-- The mesh data consumed by the coordinate conversions: runtime scale of the
mesh object on x/y, and the side length of the square vertex grid
(`Math.sqrt(positions.count)` in the source, always an integer here since the
vertex grid is square). -/
structure MeshRef where
  scaleX : ℚ
  scaleY : ℚ
  gridWidth : ℕ
deriving DecidableEq, Repr

/-- Axis-aligned bounding box of the mesh geometry (x/y extents only; the
conversions never read z). -/
structure BBox where
  minX : ℚ
  maxX : ℚ
  minY : ℚ
  maxY : ℚ
deriving DecidableEq, Repr

/-- The slice of hook state read by the coordinate conversion functions.
`camera`, `canvasElement` and `surfaceCanvas` are presence flags for refs whose
content the conversions never inspect beyond a null check. The surface canvas
size and total device-pixel-ratio scale come from `useThreeCanvas`. -/
structure CoordState where
  mesh : Option MeshRef
  boundingBox : Option BBox
  heightMap : Option (List ℚ)
  camera : Bool
  canvasElement : Bool
  surfaceCanvas : Bool
  surfaceCanvasSizeW : ℚ
  surfaceCanvasSizeH : ℚ
  totalScale : ℚ
  calibration : Calibration
deriving DecidableEq, Repr

/-- The three return modes of `worldToCanvasCoords`. -/
inductive CoordMode where
  | canvas
  | normalized
  | imageCoords
deriving DecidableEq, Repr

/-- Embedding of `worldToCanvasCoords` (useLabelingTwoFiveD.ts:334-384). -/
def worldToCanvasCoords (s : CoordState) (wx wy : ℚ) (returnType : CoordMode) :
    Option (ℚ × ℚ) :=
  match s.mesh, s.boundingBox with
  | some m, some bb =>
    let objSizeX := (bb.maxX - bb.minX) * m.scaleX
    let objSizeY := (bb.maxY - bb.minY) * m.scaleY
    let normalizedX := (wx + objSizeX / 2) / objSizeX
    let normalizedY := 1 - (wy + objSizeY / 2) / objSizeY
    let clampedNormalizedX := max 0 (min 1 normalizedX)
    let clampedNormalizedY := max 0 (min 1 normalizedY)
    match returnType with
    | .normalized => some (clampedNormalizedX, clampedNormalizedY)
    | .imageCoords =>
      match s.heightMap with
      | none => none
      | some _ =>
        let rawSizeX := bb.maxX - bb.minX
        let rawSizeY := bb.maxY - bb.minY
        let xCoord := (wx + rawSizeX / 2) / rawSizeX
        let yCoord := 1 - (wy + rawSizeY / 2) / rawSizeY
        some (xCoord, yCoord)
    | .canvas =>
      if s.surfaceCanvas = false ∨ s.camera = false ∨ s.canvasElement = false then
        none
      else
        let surfaceDisplayWidth := s.surfaceCanvasSizeW / s.totalScale
        let surfaceDisplayHeight := s.surfaceCanvasSizeH / s.totalScale
        let canvasX := clampedNormalizedX * (surfaceDisplayWidth - 1)
        let canvasY := clampedNormalizedY * (surfaceDisplayHeight - 1)
        let calibratedX :=
          if s.calibration.enabled then
            (canvasX + s.calibration.offsetX) * s.calibration.scaleX
          else canvasX
        let calibratedY :=
          if s.calibration.enabled then
            (canvasY + s.calibration.offsetY) * s.calibration.scaleY
          else canvasY
        some (max 0 (min (surfaceDisplayWidth - 1) calibratedX),
              max 0 (min (surfaceDisplayHeight - 1) calibratedY))
  | _, _ => none

/-- Height-map read `heightMap[idx] || 0` at a possibly negative index:
a negative or out-of-range index reads `undefined`, coerced to `0`. -/
def hmGet (hm : List ℚ) (i : ℤ) : ℚ :=
  if 0 ≤ i then hm.getD i.toNat 0 else 0

/-- Embedding of `getBilinearInterpolatedHeight` (useLabelingTwoFiveD.ts:955-982). -/
def getBilinearInterpolatedHeight (heightMap : Option (List ℚ)) (col row : ℚ)
    (width : ℕ) : ℚ :=
  match heightMap with
  | none => 0
  | some hm =>
    let col0 : ℤ := ⌊col⌋
    let col1 : ℤ := min (col0 + 1) ((width : ℤ) - 1)
    let row0 : ℤ := ⌊row⌋
    let row1 : ℤ := min (row0 + 1) ((width : ℤ) - 1)
    if col0 < 0 ∨ (width : ℤ) ≤ col1 ∨ row0 < 0 ∨ (width : ℤ) ≤ row1 then
      let safeCol := max 0 (min ((width : ℤ) - 1) ⌊col⌋)
      let safeRow := max 0 (min ((width : ℤ) - 1) ⌊row⌋)
      hmGet hm (safeRow * width + safeCol)
    else
      let h00 := hmGet hm (row0 * width + col0)
      let h10 := hmGet hm (row0 * width + col1)
      let h01 := hmGet hm (row1 * width + col0)
      let h11 := hmGet hm (row1 * width + col1)
      let fx := col - col0
      let fy := row - row0
      let h0 := h00 * (1 - fx) + h10 * fx
      let h1 := h01 * (1 - fx) + h11 * fx
      h0 * (1 - fy) + h1 * fy

/-- Embedding of `canvasCoordsToWorld` (useLabelingTwoFiveD.ts:433-479).
Returns the world point as a triple `(x, y, z)`. -/
def canvasCoordsToWorld (s : CoordState) (canvasX canvasY : ℚ) :
    Option (ℚ × ℚ × ℚ) :=
  match s.mesh, s.boundingBox with
  | some m, some bb =>
    if s.surfaceCanvas = false then none
    else
      let surfaceDisplayWidth := s.surfaceCanvasSizeW / s.totalScale
      let surfaceDisplayHeight := s.surfaceCanvasSizeH / s.totalScale
      let decalibratedX :=
        if s.calibration.enabled then
          canvasX / s.calibration.scaleX - s.calibration.offsetX
        else canvasX
      let decalibratedY :=
        if s.calibration.enabled then
          canvasY / s.calibration.scaleY - s.calibration.offsetY
        else canvasY
      let normalizedX := decalibratedX / (surfaceDisplayWidth - 1)
      let normalizedY := decalibratedY / (surfaceDisplayHeight - 1)
      let clampedNormalizedX := max 0 (min 1 normalizedX)
      let clampedNormalizedY := max 0 (min 1 normalizedY)
      let objSizeX := (bb.maxX - bb.minX) * m.scaleX
      let objSizeY := (bb.maxY - bb.minY) * m.scaleY
      let worldX := clampedNormalizedX * objSizeX - objSizeX / 2
      let worldY := (1 - clampedNormalizedY) * objSizeY - objSizeY / 2
      let worldZ :=
        match s.heightMap with
        | none => 0
        | some _ =>
          let width := m.gridWidth
          let col := clampedNormalizedX * ((width : ℚ) - 1)
          let row := clampedNormalizedY * ((width : ℚ) - 1)
          getBilinearInterpolatedHeight s.heightMap col row width
      some (worldX, worldY, worldZ)
  | _, _ => none

/-- Embedding of `imageCoordinatesToCanvasCoords` (useLabelingTwoFiveD.ts:1500-1522). -/
def imageCoordinatesToCanvasCoords (s : CoordState) (x y : ℚ) : Option (ℚ × ℚ) :=
  if s.surfaceCanvas = false then none
  else
    let surfaceDisplayWidth := s.surfaceCanvasSizeW / s.totalScale
    let surfaceDisplayHeight := s.surfaceCanvasSizeH / s.totalScale
    let canvasX := x * (surfaceDisplayWidth - 1)
    let canvasY := y * (surfaceDisplayHeight - 1)
    let calibratedX :=
      if s.calibration.enabled then
        (canvasX + s.calibration.offsetX) * s.calibration.scaleX
      else canvasX
    let calibratedY :=
      if s.calibration.enabled then
        (canvasY + s.calibration.offsetY) * s.calibration.scaleY
      else canvasY
    some (max 0 (min (surfaceDisplayWidth - 1) calibratedX),
          max 0 (min (surfaceDisplayHeight - 1) calibratedY))

/-- Embedding of the `isLeft` helper shared by the hook (`_isLeft`,
useLabelingTwoFiveD.ts:899-901) and the worker (labelColorWorker, part_002). -/
def isLeft (xi yi xj yj xk yk : ℚ) : ℚ :=
  (xj - xi) * (yk - yi) - (xk - xi) * (yj - yi)

/-- One iteration of the winding-number loop: `cur` is `polygon[i]`, `prev` is
`polygon[j]` (the cyclic predecessor). -/
def windingStep (x y : ℚ) (wn : ℤ) : (ℚ × ℚ) → (ℚ × ℚ) → ℤ
  | (xi, yi), (xj, yj) =>
    if yi ≤ y then
      if yj > y ∧ isLeft xi yi xj yj x y > 0 then wn + 1 else wn
    else
      if yj ≤ y ∧ isLeft xi yi xj yj x y < 0 then wn - 1 else wn

/-- The `(polygon[i], polygon[j])` pairs visited by the loop
`for (i = 0, j = n - 1; i < n; j = i++)`: each vertex paired with its cyclic
predecessor. -/
def windingPairs (poly : List (ℚ × ℚ)) : List ((ℚ × ℚ) × (ℚ × ℚ)) :=
  match poly with
  | [] => []
  | p :: _ => poly.zip (poly.getLastD p :: poly.dropLast)

/-- The accumulated winding number `wn` of the loop in
`isPointInPolygonOptimized` (useLabelingTwoFiveD.ts:904-928). -/
def windingNumber (x y : ℚ) (poly : List (ℚ × ℚ)) : ℤ :=
  (windingPairs poly).foldl (fun wn pr => windingStep x y wn pr.1 pr.2) 0

/-- Embedding of `isPointInPolygonOptimized` (useLabelingTwoFiveD.ts:904-928):
accumulate the winding number over all edges and return `wn !== 0`. -/
def isPointInPolygonOptimized (x y : ℚ) (poly : List (ℚ × ℚ)) : Bool :=
  decide (windingNumber x y poly ≠ 0)

/-- Group a flat `[x0, y0, x1, y1, ...]` array into coordinate pairs; a
trailing odd element is ignored, matching the worker loop bound
`n = poly.length / 2`. -/
def pairUp : List ℚ → List (ℚ × ℚ)
  | x :: y :: rest => (x, y) :: pairUp rest
  | _ => []

/-- Embedding of the worker's `pointInPoly` (labelColorWorker, part_002:18-40):
the same winding-number loop, reading vertex `i` from the flat polygon array at
offsets `2*i` and `2*i+1`. -/
def pointInPoly (x y : ℚ) (poly : List ℚ) : Bool :=
  isPointInPolygonOptimized x y (pairUp poly)

/-- Flatten a pair list back to the worker's flat representation. -/
def flattenPoints (pts : List (ℚ × ℚ)) : List ℚ :=
  pts.flatMap (fun p => [p.1, p.2])

/-- A horizontal edge (both endpoints at the same height) never changes the
winding number. -/
lemma windingStep_horiz (x y : ℚ) (wn : ℤ) (x1 x2 h : ℚ) :
    windingStep x y wn (x1, h) (x2, h) = wn := by
  simp only [windingStep]
  split_ifs with h1 h2 h3
  · exact absurd h2.1 (not_lt.mpr h1)
  · rfl
  · exact absurd h3.1 h1
  · rfl

/-- Contribution of a vertical edge at abscissa `vx` running from height `y1`
(current vertex) to height `y2` (previous vertex). -/
lemma windingStep_vert (x y : ℚ) (wn : ℤ) (vx y1 y2 : ℚ) :
    windingStep x y wn (vx, y1) (vx, y2) =
      wn + (if y1 ≤ y ∧ y < y2 ∧ (x - vx) * (y2 - y1) < 0 then 1 else 0)
         - (if y < y1 ∧ y2 ≤ y ∧ 0 < (x - vx) * (y2 - y1) then 1 else 0) := by
  have e : isLeft vx y1 vx y2 x y = -((x - vx) * (y2 - y1)) := by
    simp only [isLeft]; ring
  simp only [windingStep, e, gt_iff_lt]
  by_cases h1 : y1 ≤ y
  · rw [if_pos h1, if_neg (fun hc : y < y1 ∧ y2 ≤ y ∧ 0 < (x - vx) * (y2 - y1) =>
      absurd hc.1 (not_lt.mpr h1))]
    by_cases h2 : y < y2 ∧ (x - vx) * (y2 - y1) < 0
    · rw [if_pos ⟨h2.1, by linarith [h2.2]⟩, if_pos ⟨h1, h2.1, h2.2⟩]; ring
    · rw [if_neg (fun hc => h2 ⟨hc.1, by linarith [hc.2]⟩),
          if_neg (fun hc : y1 ≤ y ∧ y < y2 ∧ (x - vx) * (y2 - y1) < 0 =>
            h2 ⟨hc.2.1, hc.2.2⟩)]
      ring
  · rw [if_neg h1, if_neg (fun hc : y1 ≤ y ∧ y < y2 ∧ (x - vx) * (y2 - y1) < 0 =>
      absurd hc.1 h1)]
    push_neg at h1
    by_cases h3 : y2 ≤ y ∧ 0 < (x - vx) * (y2 - y1)
    · rw [if_pos ⟨h3.1, by linarith [h3.2]⟩, if_pos ⟨h1, h3.1, h3.2⟩]; ring
    · rw [if_neg (fun hc => h3 ⟨hc.1, by linarith [hc.2]⟩),
          if_neg (fun hc : y < y1 ∧ y2 ≤ y ∧ 0 < (x - vx) * (y2 - y1) =>
            h3 ⟨hc.2.1, hc.2.2⟩)]
      ring

/-- The winding loop over a four-vertex polygon, unrolled. -/
lemma windingNumber_quad (p0 p1 p2 p3 : ℚ × ℚ) (x y : ℚ) :
    windingNumber x y [p0, p1, p2, p3] =
      windingStep x y
        (windingStep x y
          (windingStep x y
            (windingStep x y 0 p0 p3) p1 p0) p2 p1) p3 p2 := rfl

/-- Winding number of the counterclockwise axis-aligned square
`[(a,b),(c,b),(c,d),(a,d)]`: the two horizontal edges contribute nothing, the
two vertical edges contribute on the horizontal strip `b ≤ y < d`. -/
lemma windingNumber_square_ccw (a b c d x y : ℚ) (hbd : b < d) :
    windingNumber x y [(a,b),(c,b),(c,d),(a,d)] =
      (if b ≤ y ∧ y < d ∧ x < a then 1 else 0)
      - (if b ≤ y ∧ y < d ∧ x < c then 1 else 0) := by
  rw [windingNumber_quad, windingStep_horiz, windingStep_vert, windingStep_horiz,
    windingStep_vert]
  rw [if_neg (fun hc : y < b ∧ d ≤ y ∧ 0 < (x - a) * (d - b) => by
    have := hc.1; have := hc.2.1; linarith)]
  rw [if_neg (fun hc : d ≤ y ∧ y < b ∧ (x - c) * (b - d) < 0 => by
    have := hc.1; have := hc.2.1; linarith)]
  have h1 : (b ≤ y ∧ y < d ∧ (x - a) * (d - b) < 0) ↔ (b ≤ y ∧ y < d ∧ x < a) := by
    constructor
    · rintro ⟨hy1, hy2, hp⟩
      exact ⟨hy1, hy2, by nlinarith⟩
    · rintro ⟨hy1, hy2, hx⟩
      exact ⟨hy1, hy2, by nlinarith⟩
  have h2 : (y < d ∧ b ≤ y ∧ 0 < (x - c) * (b - d)) ↔ (b ≤ y ∧ y < d ∧ x < c) := by
    constructor
    · rintro ⟨hy2, hy1, hp⟩
      exact ⟨hy1, hy2, by nlinarith⟩
    · rintro ⟨hy1, hy2, hx⟩
      exact ⟨hy2, hy1, by nlinarith⟩
  rw [if_congr h1 rfl rfl, if_congr h2 rfl rfl]
  ring

/-- Winding number of the clockwise axis-aligned square
`[(a,b),(a,d),(c,d),(c,b)]`. -/
lemma windingNumber_square_cw (a b c d x y : ℚ) (hbd : b < d) :
    windingNumber x y [(a,b),(a,d),(c,d),(c,b)] =
      (if b ≤ y ∧ y < d ∧ x < c then 1 else 0)
      - (if b ≤ y ∧ y < d ∧ x < a then 1 else 0) := by
  rw [windingNumber_quad, windingStep_horiz, windingStep_vert, windingStep_horiz,
    windingStep_vert]
  rw [if_neg (fun hc : d ≤ y ∧ y < b ∧ (x - a) * (b - d) < 0 => by
    have := hc.1; have := hc.2.1; linarith)]
  rw [if_neg (fun hc : y < b ∧ d ≤ y ∧ 0 < (x - c) * (d - b) => by
    have := hc.1; have := hc.2.1; linarith)]
  have h1 : (y < d ∧ b ≤ y ∧ 0 < (x - a) * (b - d)) ↔ (b ≤ y ∧ y < d ∧ x < a) := by
    constructor
    · rintro ⟨hy2, hy1, hp⟩
      exact ⟨hy1, hy2, by nlinarith⟩
    · rintro ⟨hy1, hy2, hx⟩
      exact ⟨hy2, hy1, by nlinarith⟩
  have h2 : (b ≤ y ∧ y < d ∧ (x - c) * (d - b) < 0) ↔ (b ≤ y ∧ y < d ∧ x < c) := by
    constructor
    · rintro ⟨hy1, hy2, hp⟩
      exact ⟨hy1, hy2, by nlinarith⟩
    · rintro ⟨hy1, hy2, hx⟩
      exact ⟨hy1, hy2, by nlinarith⟩
  rw [if_congr h1 rfl rfl, if_congr h2 rfl rfl]
  ring

/-- Re-pairing a flattened point list recovers the original list. -/
lemma pairUp_flattenPoints (pts : List (ℚ × ℚ)) : pairUp (flattenPoints pts) = pts := by
  induction pts with
  | nil => rfl
  | cons p rest ih =>
    simp only [flattenPoints, List.flatMap_cons] at *
    simpa [pairUp] using ih

/-- Difference of two indicator `if`s with equivalent conditions vanishes. -/
lemma sub_ifs_eq_zero {p q : Prop} [Decidable p] [Decidable q] (h : p ↔ q) :
    (if p then (1 : ℤ) else 0) - (if q then 1 else 0) = 0 := by
  rw [if_congr h rfl rfl]; ring

/-- A self-intersecting test polygon: an outer counterclockwise square with an
inner clockwise square traced by the same closed polyline, so the inner region
is wound `+1 - 1 = 0` times. -/
def figureEight : List (ℚ × ℚ) :=
  [(0,0), (4,0), (4,4), (0,4), (1,1), (1,3), (3,3), (3,1)]

/-- C4. The point-in-polygon test (`isPointInPolygonOptimized` in the hook and
`pointInPoly` in the worker) classifies a point as inside iff the accumulated
winding number over all polygon edges is non-zero; for every axis-aligned
square polygon (either winding), every point strictly inside tests `true` and
every point strictly outside tests `false`; and the self-intersecting
figure-eight polygon is classified by the winding rule: the opposite-winding
inner region is outside, while the singly-wound region is inside. -/
theorem winding_point_in_polygon_correct :
    (∀ (x y : ℚ) (poly : List (ℚ × ℚ)),
        isPointInPolygonOptimized x y poly = true ↔ windingNumber x y poly ≠ 0)
    ∧ (∀ (x y : ℚ) (pts : List (ℚ × ℚ)),
        pointInPoly x y (flattenPoints pts) = isPointInPolygonOptimized x y pts)
    ∧ (∀ a b c d x y : ℚ, a < x → x < c → b < y → y < d →
        isPointInPolygonOptimized x y [(a,b),(c,b),(c,d),(a,d)] = true
        ∧ isPointInPolygonOptimized x y [(a,b),(a,d),(c,d),(c,b)] = true)
    ∧ (∀ a b c d x y : ℚ, a < c → b < d → (x < a ∨ c < x ∨ y < b ∨ d < y) →
        isPointInPolygonOptimized x y [(a,b),(c,b),(c,d),(a,d)] = false
        ∧ isPointInPolygonOptimized x y [(a,b),(a,d),(c,d),(c,b)] = false)
    ∧ isPointInPolygonOptimized 2 2 figureEight = false
    ∧ isPointInPolygonOptimized (7/2) 2 figureEight = true := by
  refine ⟨?_, ?_, ?_, ?_, ?_, ?_⟩
  · intro x y poly
    simp [isPointInPolygonOptimized]
  · intro x y pts
    rw [pointInPoly, pairUp_flattenPoints]
  · intro a b c d x y h1 h2 h3 h4
    constructor
    · simp only [isPointInPolygonOptimized,
        windingNumber_square_ccw a b c d x y (by linarith)]
      rw [if_neg (fun hc : b ≤ y ∧ y < d ∧ x < a =>
            absurd hc.2.2 (not_lt.mpr (le_of_lt h1))),
          if_pos ⟨le_of_lt h3, h4, h2⟩]
      decide
    · simp only [isPointInPolygonOptimized,
        windingNumber_square_cw a b c d x y (by linarith)]
      rw [if_neg (fun hc : b ≤ y ∧ y < d ∧ x < a =>
            absurd hc.2.2 (not_lt.mpr (le_of_lt h1))),
          if_pos ⟨le_of_lt h3, h4, h2⟩]
      decide
  · intro a b c d x y hac hbd hout
    have hiff : (b ≤ y ∧ y < d ∧ x < a) ↔ (b ≤ y ∧ y < d ∧ x < c) := by
      constructor <;> rintro ⟨ha, hb2, hc2⟩ <;>
        exact ⟨ha, hb2, by rcases hout with h | h | h | h <;> linarith⟩
    constructor
    · simp only [isPointInPolygonOptimized,
        windingNumber_square_ccw a b c d x y hbd, sub_ifs_eq_zero hiff]
      decide
    · simp only [isPointInPolygonOptimized,
        windingNumber_square_cw a b c d x y hbd, sub_ifs_eq_zero hiff.symm]
      decide
  · norm_num [isPointInPolygonOptimized, figureEight, windingNumber, windingPairs,
      windingStep, isLeft]
  · norm_num [isPointInPolygonOptimized, figureEight, windingNumber, windingPairs,
      windingStep, isLeft]

/-- Witness for C4: the square-polygon clauses evaluated at the unit square
with an interior and an exterior sample point. -/
theorem winding_point_in_polygon_correct_witness :
    isPointInPolygonOptimized (1/2) (1/2) [(0,0),(1,0),(1,1),(0,1)] = true
    ∧ isPointInPolygonOptimized 2 (1/2) [(0,0),(1,0),(1,1),(0,1)] = false :=
  ⟨(winding_point_in_polygon_correct.2.2.1 0 0 1 1 (1/2) (1/2)
      (by norm_num) (by norm_num) (by norm_num) (by norm_num)).1,
   (winding_point_in_polygon_correct.2.2.2.1 0 0 1 1 2 (1/2)
      (by norm_num) (by norm_num) (Or.inr (Or.inl (by norm_num)))).1⟩

/-- Sampling `getBilinearInterpolatedHeight` at an integer grid coordinate
inside the grid hits the fast bilinear path with zero fractional parts and
returns the stored sample at `row * width + col`. -/
lemma bilinear_at_grid_vertex (hm : List ℚ) (width c r : ℕ)
    (hc : c < width) (hr : r < width) :
    getBilinearInterpolatedHeight (some hm) c r width = hm.getD (r * width + c) 0 := by
  simp only [getBilinearInterpolatedHeight, Int.floor_natCast]
  rw [if_neg (by omega)]
  have e1 : (c : ℚ) - ((c : ℤ) : ℚ) = 0 := by push_cast; ring
  have e2 : (r : ℚ) - ((r : ℤ) : ℚ) = 0 := by push_cast; ring
  rw [e1, e2]
  have hnn : (0 : ℤ) ≤ (r : ℤ) * width + c := by positivity
  have htn : ((r : ℤ) * width + c).toNat = r * width + c := by omega
  have hval : hmGet hm ((r : ℤ) * width + c) = hm.getD (r * width + c) 0 := by
    simp only [hmGet]
    rw [if_pos hnn, htn]
  simp only [sub_zero, mul_one, mul_zero, add_zero]
  exact hval

/-- When the floor of either query coordinate is negative, the source takes
its clamping branch and returns the nearest stored sample. -/
lemma bilinear_clamp_of_neg (hm : List ℚ) (width : ℕ) (col row : ℚ)
    (h : ⌊col⌋ < 0 ∨ ⌊row⌋ < 0) :
    getBilinearInterpolatedHeight (some hm) col row width =
      hmGet hm ((max 0 (min ((width : ℤ) - 1) ⌊row⌋)) * width
        + max 0 (min ((width : ℤ) - 1) ⌊col⌋)) := by
  simp only [getBilinearInterpolatedHeight]
  rcases h with h | h
  · rw [if_pos (Or.inl h)]
  · rw [if_pos (Or.inr (Or.inr (Or.inl h)))]

/-- C5 (amended). At every integer grid coordinate `(col, row)` with
`0 ≤ col, row ≤ width - 1`, `getBilinearInterpolatedHeight` returns exactly the
height stored at that grid vertex; the function is total (it never throws and
always returns a value); and a query whose floor is negative on either axis
degrades to the nearest available sample, with both indices clamped into
`[0, width - 1]`. (Queries beyond `width - 1` are NOT clamped to the nearest
sample: see the counterexample.) -/
theorem bilinear_sampling_behavior :
    (∀ (hm : List ℚ) (width c r : ℕ), c < width → r < width →
        getBilinearInterpolatedHeight (some hm) c r width = hm.getD (r * width + c) 0)
    ∧ (∀ (hm : List ℚ) (width : ℕ) (col row : ℚ), ⌊col⌋ < 0 ∨ ⌊row⌋ < 0 →
        getBilinearInterpolatedHeight (some hm) col row width =
          hmGet hm ((max 0 (min ((width : ℤ) - 1) ⌊row⌋)) * width
            + max 0 (min ((width : ℤ) - 1) ⌊col⌋))) :=
  ⟨fun hm width c r hc hr => bilinear_at_grid_vertex hm width c r hc hr,
   fun hm width col row h => bilinear_clamp_of_neg hm width col row h⟩

/-- Witness for C5: on the 2×2 grid `[1, 2, 3, 4]`, the vertex `(1, 1)` reads
the stored value `4`, and the out-of-range query `(-1, 0)` clamps to the
sample at `(0, 0)`, which is `1`. -/
theorem bilinear_sampling_behavior_witness :
    getBilinearInterpolatedHeight (some [1, 2, 3, 4]) 1 1 2 = 4
    ∧ getBilinearInterpolatedHeight (some [1, 2, 3, 4]) (-1) 0 2 = 1 := by
  constructor
  · have h := bilinear_sampling_behavior.1 [1, 2, 3, 4] 2 1 1 (by norm_num) (by norm_num)
    norm_num at h
    convert h using 2
  · have h := bilinear_sampling_behavior.2 [1, 2, 3, 4] 2 (-1) 0 (by norm_num)
    rw [h]
    norm_num [hmGet]

/-- Counterexample for C5 as stated: on the 2×2 grid `[1, 2, 3, 4]` the
out-of-range query `(col, row) = (2, 0)` returns `3` — the sample one row
below, because the un-clamped index `row0 * width + col0 = 2` wraps into the
next row of the flat array — while the nearest available sample at the
clamped coordinates `(1, 0)` is `2`. -/
theorem bilinear_sampling_counterexample :
    getBilinearInterpolatedHeight (some [1, 2, 3, 4]) 2 0 2 = 3
    ∧ hmGet [1, 2, 3, 4]
        ((max 0 (min ((2 : ℤ) - 1) ⌊(0 : ℚ)⌋)) * 2 + max 0 (min ((2 : ℤ) - 1) ⌊(2 : ℚ)⌋)) = 2
    ∧ (3 : ℚ) ≠ 2 := by
  refine ⟨?_, ?_, by norm_num⟩
  · norm_num [getBilinearInterpolatedHeight, hmGet]
    rfl
  · norm_num [hmGet]

/-- With identity calibration and a fully loaded state, `worldToCanvasCoords`
in `canvas` mode computes the un-clamped affine image of a world point whose
`(x, y)` lies within the scaled bounding-box extents. -/
lemma worldToCanvas_identity_calibration
    (m : MeshRef) (bb : BBox) (hm : Option (List ℚ)) (en : Bool)
    (W H T : ℚ) (wx wy : ℚ)
    (hSx : 0 < (bb.maxX - bb.minX) * m.scaleX)
    (hSy : 0 < (bb.maxY - bb.minY) * m.scaleY)
    (hW : 1 < W / T) (hH : 1 < H / T)
    (hx1 : -(((bb.maxX - bb.minX) * m.scaleX) / 2) ≤ wx)
    (hx2 : wx ≤ ((bb.maxX - bb.minX) * m.scaleX) / 2)
    (hy1 : -(((bb.maxY - bb.minY) * m.scaleY) / 2) ≤ wy)
    (hy2 : wy ≤ ((bb.maxY - bb.minY) * m.scaleY) / 2) :
    worldToCanvasCoords ⟨some m, some bb, hm, true, true, true, W, H, T, ⟨0, 0, 1, 1, en⟩⟩
        wx wy CoordMode.canvas =
      some ((wx + (bb.maxX - bb.minX) * m.scaleX / 2) / ((bb.maxX - bb.minX) * m.scaleX)
              * (W / T - 1),
            (1 - (wy + (bb.maxY - bb.minY) * m.scaleY / 2) / ((bb.maxY - bb.minY) * m.scaleY))
              * (H / T - 1)) := by
  set Sx := (bb.maxX - bb.minX) * m.scaleX with hSxd
  set Sy := (bb.maxY - bb.minY) * m.scaleY with hSyd
  have hnX0 : 0 ≤ (wx + Sx / 2) / Sx := div_nonneg (by linarith) hSx.le
  have hnX1 : (wx + Sx / 2) / Sx ≤ 1 := by rw [div_le_one hSx]; linarith
  have hnYv0 : 0 ≤ (wy + Sy / 2) / Sy := div_nonneg (by linarith) hSy.le
  have hnYv1 : (wy + Sy / 2) / Sy ≤ 1 := by rw [div_le_one hSy]; linarith
  have hnY0 : 0 ≤ 1 - (wy + Sy / 2) / Sy := by linarith
  have hnY1 : 1 - (wy + Sy / 2) / Sy ≤ 1 := by linarith
  simp only [worldToCanvasCoords]
  rw [min_eq_right hnX1, max_eq_right hnX0, min_eq_right hnY1, max_eq_right hnY0]
  have hcx0 : 0 ≤ (wx + Sx / 2) / Sx * (W / T - 1) := mul_nonneg hnX0 (by linarith)
  have hcx1 : (wx + Sx / 2) / Sx * (W / T - 1) ≤ W / T - 1 := by
    have := mul_le_mul_of_nonneg_right hnX1 (le_of_lt (by linarith : (0:ℚ) < W / T - 1))
    simpa using this
  have hcy0 : 0 ≤ (1 - (wy + Sy / 2) / Sy) * (H / T - 1) := mul_nonneg hnY0 (by linarith)
  have hcy1 : (1 - (wy + Sy / 2) / Sy) * (H / T - 1) ≤ H / T - 1 := by
    have := mul_le_mul_of_nonneg_right hnY1 (le_of_lt (by linarith : (0:ℚ) < H / T - 1))
    simpa using this
  cases en <;>
    norm_num <;>
    rw [min_eq_right hcx1, max_eq_right hcx0, min_eq_right hcy1, max_eq_right hcy0] <;>
    exact ⟨rfl, rfl⟩

/-- With identity calibration, `canvasCoordsToWorld` applied to the canvas
image of an in-extents world point recovers its `x` and `y` exactly. -/
lemma canvasToWorld_inverts
    (m : MeshRef) (bb : BBox) (hm : Option (List ℚ)) (en : Bool)
    (W H T : ℚ) (wx wy : ℚ)
    (hSx : 0 < (bb.maxX - bb.minX) * m.scaleX)
    (hSy : 0 < (bb.maxY - bb.minY) * m.scaleY)
    (hW : 1 < W / T) (hH : 1 < H / T)
    (hx1 : -(((bb.maxX - bb.minX) * m.scaleX) / 2) ≤ wx)
    (hx2 : wx ≤ ((bb.maxX - bb.minX) * m.scaleX) / 2)
    (hy1 : -(((bb.maxY - bb.minY) * m.scaleY) / 2) ≤ wy)
    (hy2 : wy ≤ ((bb.maxY - bb.minY) * m.scaleY) / 2) :
    (canvasCoordsToWorld ⟨some m, some bb, hm, true, true, true, W, H, T, ⟨0, 0, 1, 1, en⟩⟩
        ((wx + (bb.maxX - bb.minX) * m.scaleX / 2) / ((bb.maxX - bb.minX) * m.scaleX)
          * (W / T - 1))
        ((1 - (wy + (bb.maxY - bb.minY) * m.scaleY / 2) / ((bb.maxY - bb.minY) * m.scaleY))
          * (H / T - 1))).map
      (fun w => (w.1, w.2.1)) = some (wx, wy) := by
  set Sx := (bb.maxX - bb.minX) * m.scaleX with hSxd
  set Sy := (bb.maxY - bb.minY) * m.scaleY with hSyd
  have hnX0 : 0 ≤ (wx + Sx / 2) / Sx := div_nonneg (by linarith) hSx.le
  have hnX1 : (wx + Sx / 2) / Sx ≤ 1 := by rw [div_le_one hSx]; linarith
  have hnYv0 : 0 ≤ (wy + Sy / 2) / Sy := div_nonneg (by linarith) hSy.le
  have hnYv1 : (wy + Sy / 2) / Sy ≤ 1 := by rw [div_le_one hSy]; linarith
  have hnY0 : 0 ≤ 1 - (wy + Sy / 2) / Sy := by linarith
  have hnY1 : 1 - (wy + Sy / 2) / Sy ≤ 1 := by linarith
  have hdw : (W / T - 1) ≠ 0 := ne_of_gt (by linarith)
  have hdh : (H / T - 1) ≠ 0 := ne_of_gt (by linarith)
  have eX : (wx + Sx / 2) / Sx * (W / T - 1) / (W / T - 1) = (wx + Sx / 2) / Sx :=
    mul_div_cancel_right₀ _ hdw
  have eY : (1 - (wy + Sy / 2) / Sy) * (H / T - 1) / (H / T - 1) = 1 - (wy + Sy / 2) / Sy :=
    mul_div_cancel_right₀ _ hdh
  have eWX : (wx + Sx / 2) / Sx * Sx - Sx / 2 = wx := by
    rw [div_mul_cancel₀ _ (ne_of_gt hSx)]; ring
  have eWY : (1 - (1 - (wy + Sy / 2) / Sy)) * Sy - Sy / 2 = wy := by
    have e : (1 - (1 - (wy + Sy / 2) / Sy)) = (wy + Sy / 2) / Sy := by ring
    rw [e, div_mul_cancel₀ _ (ne_of_gt hSy)]; ring
  cases en <;>
    norm_num [canvasCoordsToWorld] <;>
    rw [eX, eY, min_eq_right hnX1, max_eq_right hnX0, min_eq_right hnY1, max_eq_right hnY0,
      eWX, eWY] <;>
    exact ⟨rfl, rfl⟩

/-- C1. With the calibration at identity (offsets 0, scales 1), for every
world point whose `(x, y)` lies within the scaled bounding-box extents of a
fully loaded state, `canvasCoordsToWorld` applied to
`worldToCanvasCoords(P, canvas)` returns a point whose x and y components
equal `P.x` and `P.y` exactly (the rational model has no rounding); the z
component is taken from the height map and is not constrained. -/
theorem canvas_roundtrip_recovers_xy
    (m : MeshRef) (bb : BBox) (hm : Option (List ℚ)) (en : Bool)
    (W H T : ℚ) (wx wy : ℚ)
    (hSx : 0 < (bb.maxX - bb.minX) * m.scaleX)
    (hSy : 0 < (bb.maxY - bb.minY) * m.scaleY)
    (hW : 1 < W / T) (hH : 1 < H / T)
    (hx1 : -(((bb.maxX - bb.minX) * m.scaleX) / 2) ≤ wx)
    (hx2 : wx ≤ ((bb.maxX - bb.minX) * m.scaleX) / 2)
    (hy1 : -(((bb.maxY - bb.minY) * m.scaleY) / 2) ≤ wy)
    (hy2 : wy ≤ ((bb.maxY - bb.minY) * m.scaleY) / 2) :
    ∃ c : ℚ × ℚ,
      worldToCanvasCoords ⟨some m, some bb, hm, true, true, true, W, H, T, ⟨0, 0, 1, 1, en⟩⟩
          wx wy CoordMode.canvas = some c
      ∧ (canvasCoordsToWorld ⟨some m, some bb, hm, true, true, true, W, H, T, ⟨0, 0, 1, 1, en⟩⟩
            c.1 c.2).map (fun w => (w.1, w.2.1)) = some (wx, wy) :=
  ⟨_, worldToCanvas_identity_calibration m bb hm en W H T wx wy hSx hSy hW hH hx1 hx2 hy1 hy2,
      canvasToWorld_inverts m bb hm en W H T wx wy hSx hSy hW hH hx1 hx2 hy1 hy2⟩

/-- Witness for C1: a concrete loaded state (2×2 world extents, 1024-pixel
surface at total scale 2) and the point `(1/2, -1/2)`. -/
theorem canvas_roundtrip_recovers_xy_witness :
    ∃ c : ℚ × ℚ,
      worldToCanvasCoords
          ⟨some ⟨1, 1, 2⟩, some ⟨-1, 1, -1, 1⟩, some [0, 0, 0, 0], true, true, true,
            1024, 1024, 2, ⟨0, 0, 1, 1, true⟩⟩ (1/2) (-1/2) CoordMode.canvas = some c
      ∧ (canvasCoordsToWorld
          ⟨some ⟨1, 1, 2⟩, some ⟨-1, 1, -1, 1⟩, some [0, 0, 0, 0], true, true, true,
            1024, 1024, 2, ⟨0, 0, 1, 1, true⟩⟩ c.1 c.2).map (fun w => (w.1, w.2.1))
          = some (1/2, -1/2) :=
  canvas_roundtrip_recovers_xy ⟨1, 1, 2⟩ ⟨-1, 1, -1, 1⟩ (some [0, 0, 0, 0]) true
    1024 1024 2 (1/2) (-1/2)
    (by norm_num) (by norm_num) (by norm_num) (by norm_num)
    (by norm_num) (by norm_num) (by norm_num) (by norm_num)

/-- C8 (amended). Neither conversion ever throws: before the mesh or bounding
box is loaded, `worldToCanvasCoords` returns null in every mode and
`canvasCoordsToWorld` returns null; `imageCoords` mode additionally returns
null without a height map; `canvas` mode additionally returns null while any
of surface canvas, camera, or canvas element is missing; and
`canvasCoordsToWorld` additionally returns null without the surface canvas.
(The claim's stronger reading — null in every mode whenever the camera is
missing — fails: see the counterexample.) -/
theorem conversions_null_when_not_ready :
    (∀ (s : CoordState) (wx wy : ℚ) (mode : CoordMode),
        s.mesh = none ∨ s.boundingBox = none → worldToCanvasCoords s wx wy mode = none)
    ∧ (∀ (s : CoordState) (wx wy : ℚ),
        s.heightMap = none → worldToCanvasCoords s wx wy CoordMode.imageCoords = none)
    ∧ (∀ (s : CoordState) (wx wy : ℚ),
        s.surfaceCanvas = false ∨ s.camera = false ∨ s.canvasElement = false →
          worldToCanvasCoords s wx wy CoordMode.canvas = none)
    ∧ (∀ (s : CoordState) (cx cy : ℚ),
        s.mesh = none ∨ s.boundingBox = none ∨ s.surfaceCanvas = false →
          canvasCoordsToWorld s cx cy = none) := by
  refine ⟨?_, ?_, ?_, ?_⟩
  · intro s wx wy mode h
    obtain ⟨ms, bs, hs, cam, cel, sc, sw, sh, ts, cal⟩ := s
    rcases h with h | h <;> cases ms <;> cases bs <;> simp_all [worldToCanvasCoords]
  · intro s wx wy h
    obtain ⟨ms, bs, hs, cam, cel, sc, sw, sh, ts, cal⟩ := s
    cases ms <;> cases bs <;> simp_all [worldToCanvasCoords]
  · intro s wx wy h
    obtain ⟨ms, bs, hs, cam, cel, sc, sw, sh, ts, cal⟩ := s
    rcases h with h | h | h <;> cases ms <;> cases bs <;> simp_all [worldToCanvasCoords]
  · intro s cx cy h
    obtain ⟨ms, bs, hs, cam, cel, sc, sw, sh, ts, cal⟩ := s
    rcases h with h | h | h <;> cases ms <;> cases bs <;> simp_all [canvasCoordsToWorld]

/-- Witness for C8: the guards evaluated on a state with nothing loaded. -/
theorem conversions_null_when_not_ready_witness :
    worldToCanvasCoords
        ⟨none, none, none, false, false, false, 0, 0, 1, ⟨0, 0, 1, 1, true⟩⟩ 0 0
        CoordMode.normalized = none
    ∧ canvasCoordsToWorld
        ⟨none, none, none, false, false, false, 0, 0, 1, ⟨0, 0, 1, 1, true⟩⟩ 0 0 = none :=
  ⟨conversions_null_when_not_ready.1
      ⟨none, none, none, false, false, false, 0, 0, 1, ⟨0, 0, 1, 1, true⟩⟩ 0 0
      CoordMode.normalized (Or.inl rfl),
   conversions_null_when_not_ready.2.2.2
      ⟨none, none, none, false, false, false, 0, 0, 1, ⟨0, 0, 1, 1, true⟩⟩ 0 0 (Or.inl rfl)⟩

/-- A state whose mesh, bounding box, height map and surface canvas are loaded
but whose camera (and canvas element) are not yet attached. -/
def loadedStateNoCamera : CoordState :=
  ⟨some ⟨1, 1, 2⟩, some ⟨-1, 1, -1, 1⟩, some [0, 0, 0, 0], false, false, true,
    1024, 1024, 2, ⟨0, 0, 1, 1, true⟩⟩

/-- Counterexample for C8 as stated: with the camera not yet loaded (and only
mesh/bounding box present), `worldToCanvasCoords` in `normalized` mode does
NOT return null — it returns the normalized center `(1/2, 1/2)` — because the
camera guard sits only in the `canvas` branch of the source. -/
theorem worldToCanvas_not_null_without_camera :
    loadedStateNoCamera.camera = false
    ∧ worldToCanvasCoords loadedStateNoCamera 0 0 CoordMode.normalized
        = some (1/2, 1/2) := by
  refine ⟨rfl, ?_⟩
  norm_num [worldToCanvasCoords, loadedStateNoCamera]

/-- An rgb triple with components in `[0, 1]`, the parsed form of a hex color
string (see the file header for the color-representation convention). -/
structure RGB where
  r : ℚ
  g : ℚ
  b : ℚ
deriving DecidableEq, Repr

/-- Embedding of `hexToRgb` (useLabelingTwoFiveD.ts:1633-1642): hex parsing is
the identity on the rgb representation used here. -/
def hexToRgb (c : RGB) : RGB := c

/-- One iteration of the vertex loop in `applyVertexColoringOptimized`
(useLabelingTwoFiveD.ts:1705-1732): at flat index `i = vertexIndex * 3`,
subtract mode restores the three components from the `originalColors`
snapshot (no-op when the snapshot is missing), otherwise blend
`target * opacity + original * (1 - opacity)` (or write the target directly
when the snapshot is missing). `List.set` out of range is a no-op, like a
typed-array write. -/
def colorVertex (original : Option (List ℚ)) (isSubtract : Bool) (target : RGB)
    (opacity : ℚ) (arr : List ℚ) (v : ℕ) : List ℚ :=
  let i := v * 3
  match original with
  | some orig =>
    if isSubtract then
      ((arr.set i (orig.getD i 0)).set (i+1) (orig.getD (i+1) 0)).set (i+2)
        (orig.getD (i+2) 0)
    else
      ((arr.set i (target.r * opacity + orig.getD i 0 * (1 - opacity))).set
        (i+1) (target.g * opacity + orig.getD (i+1) 0 * (1 - opacity))).set
        (i+2) (target.b * opacity + orig.getD (i+2) 0 * (1 - opacity))
  | none =>
    if isSubtract then arr
    else ((arr.set i target.r).set (i+1) target.g).set (i+2) target.b

/-- Embedding of `applyVertexColoringOptimized` (useLabelingTwoFiveD.ts:
1644-1742). The asynchronous vertex-set resolution (per-label cache, worker
round-trip, or synchronous fallback scan) is modelled by passing the resolved
vertex index list directly; the function returns the updated color buffer and
the updated process-wide affected-vertex set. `opacity` is `1/2` when this
label is the highlighted one, else `1`. -/
def applyVertexColoringOptimized (colorArray : List ℚ) (original : Option (List ℚ))
    (affectedSet : Finset ℕ) (affectedVerticesInPolygon : List ℕ)
    (isSubtract : Bool) (index highlightIndex : ℤ) (colorToUse : RGB) :
    List ℚ × Finset ℕ :=
  if affectedVerticesInPolygon.length = 0 then (colorArray, affectedSet)
  else
    let target := hexToRgb colorToUse
    let opacity : ℚ := if index = highlightIndex then 1/2 else 1
    (affectedVerticesInPolygon.foldl (colorVertex original isSubtract target opacity)
        colorArray,
     affectedSet ∪ affectedVerticesInPolygon.toFinset)

/-- Reading a list after `set`: the new value exactly when the index matches
and the write was in range. -/
lemma getD_set {α : Type} (l : List α) (j i : ℕ) (a d : α) :
    (l.set j a).getD i d = if i = j ∧ j < l.length then a else l.getD i d := by
  induction l generalizing i j with
  | nil => simp
  | cons x xs ih =>
    cases j with
    | zero =>
      cases i with
      | zero => simp
      | succ n => simp
    | succ m =>
      cases i with
      | zero => simp
      | succ n =>
        simp only [List.set_cons_succ, List.getD_cons_succ, List.length_cons, ih]
        have hiff : (n = m ∧ m < xs.length) ↔ (n + 1 = m + 1 ∧ m + 1 < xs.length + 1) := by
          omega
        rw [if_congr hiff rfl rfl]

/-- `colorVertex` preserves the color-buffer length. -/
lemma colorVertex_length (o : Option (List ℚ)) (sub : Bool) (t : RGB) (op : ℚ)
    (arr : List ℚ) (v : ℕ) : (colorVertex o sub t op arr v).length = arr.length := by
  simp only [colorVertex]
  cases o <;> split_ifs <;> simp

/-- The vertex-loop fold preserves the color-buffer length. -/
lemma foldl_colorVertex_length (o : Option (List ℚ)) (sub : Bool) (t : RGB) (op : ℚ) :
    ∀ (S : List ℕ) (arr : List ℚ),
      (S.foldl (colorVertex o sub t op) arr).length = arr.length := by
  intro S
  induction S with
  | nil => intro arr; rfl
  | cons v rest ih =>
    intro arr
    simp only [List.foldl_cons]
    rw [ih, colorVertex_length]

/-- Subtract-mode `colorVertex` writes the baseline value at the three slots
of its vertex and nothing else. -/
lemma colorVertex_subtract_getD (orig : List ℚ) (t : RGB) (op : ℚ) (arr : List ℚ)
    (v i : ℕ) :
    (colorVertex (some orig) true t op arr v).getD i 0 =
      if (i = v * 3 ∨ i = v * 3 + 1 ∨ i = v * 3 + 2) ∧ i < arr.length
      then orig.getD i 0 else arr.getD i 0 := by
  simp only [colorVertex, if_true]
  rw [getD_set, getD_set, getD_set]
  simp only [List.length_set]
  split_ifs <;> first | rfl | (exfalso; omega) | simp_all

/-- The subtract-mode vertex loop restores exactly the slots belonging to the
processed vertices (in range) to the baseline snapshot. -/
lemma subtract_foldl_getD (orig : List ℚ) (t : RGB) (op : ℚ) :
    ∀ (S : List ℕ) (arr : List ℚ) (i : ℕ),
      (S.foldl (colorVertex (some orig) true t op) arr).getD i 0 =
        if (∃ v ∈ S, i = v * 3 ∨ i = v * 3 + 1 ∨ i = v * 3 + 2) ∧ i < arr.length
        then orig.getD i 0 else arr.getD i 0 := by
  intro S
  induction S with
  | nil => intro arr i; simp
  | cons v rest ih =>
    intro arr i
    simp only [List.foldl_cons]
    rw [ih, colorVertex_length, colorVertex_subtract_getD]
    by_cases hi : i < arr.length
    · by_cases hr : ∃ u ∈ rest, i = u * 3 ∨ i = u * 3 + 1 ∨ i = u * 3 + 2
      · rw [if_pos ⟨hr, hi⟩]
        obtain ⟨u, hu, hui⟩ := hr
        rw [if_pos ⟨⟨u, List.mem_cons_of_mem v hu, hui⟩, hi⟩]
      · rw [if_neg (fun hc : (∃ u ∈ rest, i = u * 3 ∨ i = u * 3 + 1 ∨ i = u * 3 + 2)
              ∧ i < arr.length => hr hc.1)]
        by_cases hv : i = v * 3 ∨ i = v * 3 + 1 ∨ i = v * 3 + 2
        · rw [if_pos ⟨hv, hi⟩, if_pos ⟨⟨v, List.mem_cons_self v rest, hv⟩, hi⟩]
        · rw [if_neg (fun hc : (i = v * 3 ∨ i = v * 3 + 1 ∨ i = v * 3 + 2)
                ∧ i < arr.length => hv hc.1), if_neg]
          rintro ⟨⟨u, hu, hui⟩, hi2⟩
          rcases List.mem_cons.mp hu with rfl | hu2
          · exact hv hui
          · exact hr ⟨u, hu2, hui⟩
    · rw [if_neg (fun hc : (∃ u ∈ rest, i = u * 3 ∨ i = u * 3 + 1 ∨ i = u * 3 + 2)
            ∧ i < arr.length => hi hc.2),
          if_neg (fun hc : (i = v * 3 ∨ i = v * 3 + 1 ∨ i = v * 3 + 2)
            ∧ i < arr.length => hi hc.2),
          if_neg (fun hc : (∃ u ∈ v :: rest, i = u * 3 ∨ i = u * 3 + 1 ∨ i = u * 3 + 2)
            ∧ i < arr.length => hi hc.2)]

/-- C6. Coloring a label (`isSubtract = false`) and then immediately
subtract-coloring the same resolved vertex set leaves every affected vertex
component in the color buffer exactly equal to its value in the
`originalColors` baseline snapshot, regardless of the colors, opacities, and
highlight indices used in either pass. -/
theorem color_then_subtract_restores_baseline
    (colorArray orig : List ℚ) (set1 set2 : Finset ℕ) (S : List ℕ)
    (i1 h1 i2 h2 : ℤ) (c1 c2 : RGB)
    (hlen : orig.length = colorArray.length)
    (v : ℕ) (hv : v ∈ S) (j : ℕ) (hj : j < 3) :
    ((applyVertexColoringOptimized
        (applyVertexColoringOptimized colorArray (some orig) set1 S false i1 h1 c1).1
        (some orig) set2 S true i2 h2 c2).1).getD (v * 3 + j) 0
      = orig.getD (v * 3 + j) 0 := by
  have hS : ¬(S.length = 0) := by
    cases S with
    | nil => simp at hv
    | cons a l => simp
  simp only [applyVertexColoringOptimized, if_neg hS]
  rw [subtract_foldl_getD]
  have hlen1 : (S.foldl
      (colorVertex (some orig) false (hexToRgb c1) (if i1 = h1 then 1/2 else 1))
      colorArray).length = colorArray.length :=
    foldl_colorVertex_length _ _ _ _ S colorArray
  by_cases hi : v * 3 + j < (S.foldl
      (colorVertex (some orig) false (hexToRgb c1) (if i1 = h1 then 1/2 else 1))
      colorArray).length
  · rw [if_pos ⟨⟨v, hv, by omega⟩, hi⟩]
  · rw [if_neg fun hc => hi hc.2]
    rw [List.getD_eq_default _ _ (by omega : (S.foldl
        (colorVertex (some orig) false (hexToRgb c1) (if i1 = h1 then 1/2 else 1))
        colorArray).length ≤ v * 3 + j),
      List.getD_eq_default _ _ (by rw [hlen]; omega : orig.length ≤ v * 3 + j)]

/-- Witness for C6: a two-vertex buffer, baseline `[1,2,3,4,5,6]`, coloring
then subtract-coloring vertex `1`; its first component is restored to the
baseline value. -/
theorem color_then_subtract_restores_baseline_witness :
    ((applyVertexColoringOptimized
        (applyVertexColoringOptimized [0, 0, 0, 0, 0, 0] (some [1, 2, 3, 4, 5, 6])
          ∅ [1] false 0 0 ⟨1, 0, 0⟩).1
        (some [1, 2, 3, 4, 5, 6]) ∅ [1] true 0 (-1) ⟨1, 0, 0⟩).1).getD (1 * 3 + 0) 0
      = [1, 2, 3, 4, 5, 6].getD (1 * 3 + 0) 0 :=
  color_then_subtract_restores_baseline [0, 0, 0, 0, 0, 0] [1, 2, 3, 4, 5, 6] ∅ ∅ [1]
    0 0 0 (-1) ⟨1, 0, 0⟩ ⟨1, 0, 0⟩ (by simp) 1 (by simp) 0 (by norm_num)

/-- The polygon tool modes of the 2.5D hook. -/
inductive PolygonType3D where
  | NONE
  | AUTO_LABEL
deriving DecidableEq, Repr

/-- Shape kinds; the 2.5D core only ever constructs `POLYGON`. -/
inductive LabelShapeType where
  | POLYGON
  | POINT
  | LINE
  | CIRCLE
deriving DecidableEq, Repr

/-- The externally owned tag a label references; only its color is read
by the hook. -/
structure Feature where
  color : RGB
deriving DecidableEq, Repr

/-- Embedding of the `LabelPoint3D` record (useLabelingTwoFiveD.ts:25-35).
`worldPositions` is optional; the `mesh`/`vertexCache` fields are omitted (no
claim reads them). -/
structure LabelPoint3D where
  id : ℕ
  points : List (ℚ × ℚ)
  labelShapeType : LabelShapeType
  isSubtract : Bool
  isCache : Bool
  worldPositions : Option (List (ℚ × ℚ × ℚ))
  feature : Option Feature
  isAutoLabel : Bool
deriving DecidableEq, Repr

/-- The drawing/labeling slice of the hook state. `currentPoints` is an
`Option` because `undoLatestShape3D` assigns `lastShape.worldPositions || null`
to it; `emitted` logs the labels passed to `emit('onDeleteShape', ...)`;
`inferFinishCalls` / `inferUndoCalls` count the fire-and-forget
`InferApi.finishAutoLabel` / `InferApi.undoAutoLabel` requests;
`autoLabelMarkLines` holds the count of auto-label click marks. -/
structure DrawState where
  coord : CoordState
  drawingGroup : Bool
  isDrawing : Bool
  isAutoLabeling : Bool
  currentPoints : Option (List (ℚ × ℚ × ℚ))
  previewPoints : List (ℚ × ℚ × ℚ)
  labelPoints3D : List LabelPoint3D
  cacheAutoLabel : List LabelPoint3D
  savedLabelPoints : List LabelPoint3D
  autoLabelMarkLines : ℕ
  hoverDisabled : Bool
  labelConfigIsSubtract : Bool
  emitted : List LabelPoint3D
  inferFinishCalls : ℕ
  inferUndoCalls : ℕ
deriving DecidableEq, Repr

/-- Embedding of `startPolygonDrawing` (useLabelingTwoFiveD.ts:786-797). -/
def startPolygonDrawing (s : DrawState) : DrawState :=
  if s.drawingGroup = false then s
  else { s with isDrawing := true, currentPoints := some [], previewPoints := [] }

/-- Embedding of `addPointToPolygon` (useLabelingTwoFiveD.ts:800-812); `none`
models the TypeError a push onto a null `currentPoints` would raise (the
scheduled redraw it also queues is a canvas side effect not modelled here). -/
def addPointToPolygon (s : DrawState) (w : ℚ × ℚ × ℚ) : Option DrawState :=
  if s.isDrawing = false then some s
  else
    match s.currentPoints with
    | none => none
    | some l => some { s with currentPoints := some (l ++ [w]) }

/-- Embedding of `worldPointToImageCoords` (useLabelingTwoFiveD.ts:1135-1140):
normalized conversion with a `(0, 0)` fallback for failed conversions. -/
def worldPointToImageCoords (c : CoordState) (ws : List (ℚ × ℚ × ℚ)) : List (ℚ × ℚ) :=
  ws.map fun w =>
    match worldToCanvasCoords c w.1 w.2.1 CoordMode.normalized with
    | some p => p
    | none => (0, 0)

/-- Embedding of `cancelCurrentDrawing` (useLabelingTwoFiveD.ts:1302-1319);
the 100 ms timer that re-enables hovering is not modelled. -/
def cancelCurrentDrawing (s : DrawState) : DrawState :=
  if s.isDrawing = false then s
  else
    { s with isDrawing := false, currentPoints := some [], previewPoints := [],
             hoverDisabled := true }

/-- Embedding of `finishPolygonDrawing` (useLabelingTwoFiveD.ts:854-895).
`now` stands for `new Date().getTime()`. `none` models the TypeError of
reading `.length` of a null `currentPoints` while drawing. The 100 ms
hover-reenable timer is not modelled. -/
def finishPolygonDrawing (s : DrawState) (feature : Feature) (isSubtract : Bool)
    (polygonType : PolygonType3D) (now : ℕ) : Option DrawState :=
  if s.isAutoLabeling = true ∧ polygonType = PolygonType3D.AUTO_LABEL then
    some { s with labelPoints3D := s.labelPoints3D ++ s.cacheAutoLabel,
                  autoLabelMarkLines := 0,
                  isAutoLabeling := false,
                  isDrawing := false,
                  inferFinishCalls := s.inferFinishCalls + 1,
                  cacheAutoLabel := [] }
  else if s.isDrawing = false then some s
  else
    match s.currentPoints with
    | none => none
    | some cur =>
      if cur.length < 3 then some s
      else
        let points2D := worldPointToImageCoords s.coord cur
        let newLabel : LabelPoint3D :=
          { id := now, points := points2D, labelShapeType := LabelShapeType.POLYGON,
            isSubtract := isSubtract, isCache := true, worldPositions := some cur,
            feature := some feature, isAutoLabel := false }
        some { s with labelPoints3D := s.labelPoints3D ++ [newLabel],
                      currentPoints := some [], previewPoints := [],
                      isDrawing := false, hoverDisabled := true }

/-- Embedding of `undoLatestShape3D` (useLabelingTwoFiveD.ts:1379-1427). The
auto-labeling branch issues `InferApi.undoAutoLabel` (counted) whose
asynchronous response handling is outside this synchronous step; the guard
`autoLabelMarkLines.length >= 0` of the source is always true. -/
def undoLatestShape3D (s : DrawState) : DrawState :=
  if s.isDrawing = true then
    match s.currentPoints with
    | some l =>
      if 0 < l.length then
        let s1 := { s with currentPoints := some l.dropLast }
        if l.dropLast.length = 0 then cancelCurrentDrawing s1 else s1
      else s
    | none => s
  else if s.isAutoLabeling = true then
    { s with inferUndoCalls := s.inferUndoCalls + 1 }
  else if 0 < s.savedLabelPoints.length then
    match s.savedLabelPoints.getLast? with
    | some lastShape =>
      { s with savedLabelPoints := s.savedLabelPoints.dropLast,
               emitted := s.emitted ++ [lastShape],
               currentPoints := lastShape.worldPositions,
               isDrawing := true }
    | none => s
  else s

/-- Embedding of `deleteLabel3D` (useLabelingTwoFiveD.ts:1173-1177): a guarded
splice of the saved label list, and nothing else. -/
def deleteLabel3D (s : DrawState) (labelIndex : ℤ) : DrawState :=
  if 0 ≤ labelIndex ∧ labelIndex < (s.savedLabelPoints.length : ℤ) then
    { s with savedLabelPoints := s.savedLabelPoints.eraseIdx labelIndex.toNat }
  else s

/-- Embedding of `cancelLabelRendering` (useLabelingTwoFiveD.ts:1349-1353):
emits `onDeleteShape` with the label at the index, without removing it. -/
def cancelLabelRendering (s : DrawState) (labelIndex : ℤ) : DrawState :=
  if labelIndex < 0 ∨ (s.savedLabelPoints.length : ℤ) ≤ labelIndex then s
  else
    match s.savedLabelPoints.get? labelIndex.toNat with
    | some label => { s with emitted := s.emitted ++ [label] }
    | none => s

/-- Distance test of `mergeAdjacentPoints`: `dx*dx + dy*dy >= threshold^2`
for `d = curr - prev`. -/
def farEnough (threshold : ℚ) (prev curr : ℚ × ℚ) : Bool :=
  decide ((curr.1 - prev.1) * (curr.1 - prev.1)
    + (curr.2 - prev.2) * (curr.2 - prev.2) ≥ threshold * threshold)

/-- Embedding of `mergeAdjacentPoints` (useLabelingTwoFiveD.ts:1025-1048):
drop points closer than `threshold` to the last kept point, then drop a
closing duplicate when at least three points remain. -/
def mergeAdjacentPoints (points : List (ℚ × ℚ)) (threshold : ℚ) : List (ℚ × ℚ) :=
  if points.length < 2 then points
  else
    match points with
    | [] => points
    | p0 :: rest =>
      let merged := rest.foldl
        (fun acc curr =>
          if farEnough threshold (acc.getLastD p0) curr then acc ++ [curr] else acc)
        [p0]
      if 3 ≤ merged.length then
        if farEnough threshold (merged.getLastD p0) (merged.headD p0) then merged
        else merged.dropLast
      else merged

/-- One iteration of the contour-filter loop of `handleAutoLabelResult`
(useLabelingTwoFiveD.ts:1050-1059): simplify the contour, fall back to the
unsimplified contour when simplification leaves fewer than 3 points, and keep
the result only when it has more than 2 points. -/
def autoLabelContourStep (acc : List (List (ℚ × ℚ))) (contour : List (ℚ × ℚ)) :
    List (List (ℚ × ℚ)) :=
  let originalPoints := contour
  let merged := mergeAdjacentPoints originalPoints (1/1000)
  let imagePoints := if merged.length < 3 then originalPoints else merged
  if 2 < imagePoints.length then acc ++ [imagePoints] else acc

/-- The contour-filter loop of `handleAutoLabelResult`
(useLabelingTwoFiveD.ts:1050-1059), collecting `allImagePoints`. -/
def handleAutoLabelResultContours (contours : List (List (ℚ × ℚ))) :
    List (List (ℚ × ℚ)) :=
  contours.foldl autoLabelContourStep []

/-- Embedding of `handleAutoLabelResult` (useLabelingTwoFiveD.ts:1022-1089) on
the non-aborted path: build one candidate label per kept contour and replace
the auto-label candidate cache. `now` stands for `Date.now()`; conversions
that fail (null) are dropped from `worldPositions` in this embedding. -/
def handleAutoLabelResult (s : DrawState) (contours : List (List (ℚ × ℚ)))
    (feature : Feature) (now : ℕ) : DrawState :=
  let allImagePoints := handleAutoLabelResultContours contours
  let newLabels := allImagePoints.enum.map
    (fun iv =>
      ({ id := now + iv.1, points := iv.2,
         labelShapeType := LabelShapeType.POLYGON,
         isSubtract := s.labelConfigIsSubtract, isCache := true,
         worldPositions := some ((iv.2.filterMap
             (fun p => imageCoordinatesToCanvasCoords s.coord p.1 p.2)).filterMap
             (fun c => canvasCoordsToWorld s.coord c.1 c.2)),
         feature := some feature, isAutoLabel := true } : LabelPoint3D))
  { s with cacheAutoLabel := newLabels }

/-- C2 (amended). Starting a polygon drawing, adding 2 points, then calling
`finishPolygonDrawing` creates no label and is a pure no-op with no error: the
draft is kept, not discarded (`currentPoints` still holds the 2 points and
`isDrawing` stays true). Adding a 3rd point and then finishing appends exactly
one label whose points are exactly the 3 added world points converted to
normalized image coordinates, in insertion order, after which `currentPoints`,
`previewPoints`, and `isDrawing` are cleared. -/
theorem polygon_finish_lifecycle
    (s0 : DrawState) (p1 p2 p3 : ℚ × ℚ × ℚ) (c1 c2 c3 : ℚ × ℚ)
    (f : Feature) (b : Bool) (now : ℕ)
    (hg : s0.drawingGroup = true) (hd : s0.isDrawing = false)
    (ha : s0.isAutoLabeling = false)
    (hc1 : worldToCanvasCoords s0.coord p1.1 p1.2.1 CoordMode.normalized = some c1)
    (hc2 : worldToCanvasCoords s0.coord p2.1 p2.2.1 CoordMode.normalized = some c2)
    (hc3 : worldToCanvasCoords s0.coord p3.1 p3.2.1 CoordMode.normalized = some c3) :
    (∃ s2 : DrawState,
        (addPointToPolygon (startPolygonDrawing s0) p1).bind
            (fun s => addPointToPolygon s p2) = some s2
        ∧ finishPolygonDrawing s2 f b PolygonType3D.NONE now = some s2
        ∧ s2.isDrawing = true ∧ s2.currentPoints = some [p1, p2]
        ∧ s2.labelPoints3D = s0.labelPoints3D)
    ∧ (∃ s3 sf : DrawState,
        ((addPointToPolygon (startPolygonDrawing s0) p1).bind
            (fun s => addPointToPolygon s p2)).bind
            (fun s => addPointToPolygon s p3) = some s3
        ∧ finishPolygonDrawing s3 f b PolygonType3D.NONE now = some sf
        ∧ sf.labelPoints3D = s0.labelPoints3D ++
            [{ id := now, points := [c1, c2, c3],
               labelShapeType := LabelShapeType.POLYGON, isSubtract := b,
               isCache := true, worldPositions := some [p1, p2, p3],
               feature := some f, isAutoLabel := false }]
        ∧ sf.currentPoints = some [] ∧ sf.previewPoints = []
        ∧ sf.isDrawing = false) := by
  have e1 : startPolygonDrawing s0 =
      { s0 with isDrawing := true, currentPoints := some [], previewPoints := [] } := by
    simp [startPolygonDrawing, hg]
  constructor
  · refine ⟨{ s0 with isDrawing := true, currentPoints := some [p1, p2], previewPoints := [] }, ?_, ?_, rfl, rfl, rfl⟩
    · rw [e1]
      simp [addPointToPolygon]
    · simp [finishPolygonDrawing, ha]
  · refine ⟨{ s0 with isDrawing := true, currentPoints := some [p1, p2, p3], previewPoints := [] }, { s0 with labelPoints3D := s0.labelPoints3D ++ [{ id := now, points := [c1, c2, c3], labelShapeType := LabelShapeType.POLYGON, isSubtract := b, isCache := true, worldPositions := some [p1, p2, p3], feature := some f, isAutoLabel := false }], currentPoints := some [], previewPoints := [], isDrawing := false, hoverDisabled := true }, ?_, ?_, rfl, rfl, rfl, rfl⟩
    · rw [e1]
      simp [addPointToPolygon]
    · simp [finishPolygonDrawing, ha, worldPointToImageCoords, hc1, hc2, hc3]

/-- A ready drawing state: geometry loaded, no drawing in progress, no labels
yet. -/
def exDrawState : DrawState :=
  { coord := ⟨some ⟨1, 1, 2⟩, some ⟨-1, 1, -1, 1⟩, some [0, 0, 0, 0], true, true, true,
      1024, 1024, 2, ⟨0, 0, 1, 1, true⟩⟩,
    drawingGroup := true, isDrawing := false, isAutoLabeling := false,
    currentPoints := some [], previewPoints := [], labelPoints3D := [],
    cacheAutoLabel := [], savedLabelPoints := [], autoLabelMarkLines := 0,
    hoverDisabled := false, labelConfigIsSubtract := false, emitted := [],
    inferFinishCalls := 0, inferUndoCalls := 0 }

/-- Counterexample for C2 as stated: after starting and adding 2 points,
`finishPolygonDrawing` does NOT discard the draft — the session is still
drawing with both points; it merely creates no label. -/
theorem finish_with_two_points_keeps_draft :
    (((addPointToPolygon (startPolygonDrawing exDrawState) (0, 0, 0)).bind
        (fun s => addPointToPolygon s (1, 0, 0))).bind
        (fun s => finishPolygonDrawing s ⟨⟨1, 0, 0⟩⟩ false PolygonType3D.NONE 0)).map
      (fun s => (s.isDrawing, s.currentPoints, s.labelPoints3D.length))
      = some (true, some [(0, 0, 0), (1, 0, 0)], 0) := rfl

/-- Witness for C2 (amended): the lifecycle at three concrete points of the
loaded example state. -/
theorem polygon_finish_lifecycle_witness :
    ∃ s2 : DrawState,
      (addPointToPolygon (startPolygonDrawing exDrawState) (0, 0, 0)).bind
          (fun s => addPointToPolygon s ((1 : ℚ), (0 : ℚ), (0 : ℚ))) = some s2
      ∧ finishPolygonDrawing s2 ⟨⟨1, 0, 0⟩⟩ false PolygonType3D.NONE 0 = some s2
      ∧ s2.isDrawing = true ∧ s2.currentPoints = some [(0, 0, 0), (1, 0, 0)]
      ∧ s2.labelPoints3D = exDrawState.labelPoints3D :=
  (polygon_finish_lifecycle exDrawState (0, 0, 0) (1, 0, 0) (0, 1, 0)
    (1/2, 1/2) (1, 1/2) (1/2, 0) ⟨⟨1, 0, 0⟩⟩ false 0 rfl rfl rfl
    (by norm_num [worldToCanvasCoords, exDrawState])
    (by norm_num [worldToCanvasCoords, exDrawState])
    (by norm_num [worldToCanvasCoords, exDrawState])).1

/-- C7. With saved labels `[A, B]` and no drawing or auto-labeling in
progress, one call to `undoLatestShape3D` removes `B`, emits a deletion
notification with `B`, and re-opens `B` as the active in-progress drawing
(`isDrawing` true, `currentPoints` = `B`'s world points); a second call then
removes exactly one point from the in-progress drawing (its last) instead of
removing `A`, and emits nothing further. -/
theorem undo_pops_label_then_point
    (s : DrawState) (A B : LabelPoint3D) (ps : List (ℚ × ℚ × ℚ))
    (hsl : s.savedLabelPoints = [A, B]) (hd : s.isDrawing = false)
    (ha : s.isAutoLabeling = false) (hwp : B.worldPositions = some ps)
    (hps : ps ≠ []) :
    (undoLatestShape3D s).savedLabelPoints = [A]
    ∧ (undoLatestShape3D s).emitted = s.emitted ++ [B]
    ∧ (undoLatestShape3D s).isDrawing = true
    ∧ (undoLatestShape3D s).currentPoints = some ps
    ∧ (undoLatestShape3D (undoLatestShape3D s)).savedLabelPoints = [A]
    ∧ (undoLatestShape3D (undoLatestShape3D s)).currentPoints = some ps.dropLast
    ∧ (undoLatestShape3D (undoLatestShape3D s)).emitted = s.emitted ++ [B] := by
  have e1 : undoLatestShape3D s =
      { s with savedLabelPoints := [A], emitted := s.emitted ++ [B],
               currentPoints := some ps, isDrawing := true } := by
    simp [undoLatestShape3D, hd, ha, hsl, hwp]
  rw [e1]
  refine ⟨rfl, rfl, rfl, rfl, ?_⟩
  have hlen : 0 < ps.length := List.length_pos.mpr hps
  by_cases hone : ps.length - 1 = 0
  · have hd0 : ps.dropLast = [] := by
      apply List.length_eq_zero.mp
      rw [List.length_dropLast]
      exact hone
    simp [undoLatestShape3D, hlen, hone, cancelCurrentDrawing, hd0]
  · simp [undoLatestShape3D, hlen, hone, cancelCurrentDrawing]

/-- Witness for C7: two concrete labels; undoing twice pops `B` and then its
last world point, leaving `A` saved. -/
theorem undo_pops_label_then_point_witness :
    (undoLatestShape3D { exDrawState with savedLabelPoints := [{ id := 1, points := [(0, 0), (1, 0), (0, 1)], labelShapeType := LabelShapeType.POLYGON, isSubtract := false, isCache := true, worldPositions := some [(0, 0, 0), (1, 0, 0), (0, 1, 0)], feature := some ⟨⟨1, 0, 0⟩⟩, isAutoLabel := false }, { id := 2, points := [(0, 0), (1, 0), (1, 1)], labelShapeType := LabelShapeType.POLYGON, isSubtract := false, isCache := true, worldPositions := some [(0, 0, 0), (1, 0, 0), (1, 1, 0)], feature := some ⟨⟨1, 0, 0⟩⟩, isAutoLabel := false }] }).savedLabelPoints
      = [{ id := 1, points := [(0, 0), (1, 0), (0, 1)], labelShapeType := LabelShapeType.POLYGON, isSubtract := false, isCache := true, worldPositions := some [(0, 0, 0), (1, 0, 0), (0, 1, 0)], feature := some ⟨⟨1, 0, 0⟩⟩, isAutoLabel := false }]
    ∧ (undoLatestShape3D (undoLatestShape3D { exDrawState with savedLabelPoints := [{ id := 1, points := [(0, 0), (1, 0), (0, 1)], labelShapeType := LabelShapeType.POLYGON, isSubtract := false, isCache := true, worldPositions := some [(0, 0, 0), (1, 0, 0), (0, 1, 0)], feature := some ⟨⟨1, 0, 0⟩⟩, isAutoLabel := false }, { id := 2, points := [(0, 0), (1, 0), (1, 1)], labelShapeType := LabelShapeType.POLYGON, isSubtract := false, isCache := true, worldPositions := some [(0, 0, 0), (1, 0, 0), (1, 1, 0)], feature := some ⟨⟨1, 0, 0⟩⟩, isAutoLabel := false }] })).currentPoints
      = some [(0, 0, 0), (1, 0, 0)] := by
  have h := undo_pops_label_then_point
    { exDrawState with savedLabelPoints := [{ id := 1, points := [(0, 0), (1, 0), (0, 1)], labelShapeType := LabelShapeType.POLYGON, isSubtract := false, isCache := true, worldPositions := some [(0, 0, 0), (1, 0, 0), (0, 1, 0)], feature := some ⟨⟨1, 0, 0⟩⟩, isAutoLabel := false }, { id := 2, points := [(0, 0), (1, 0), (1, 1)], labelShapeType := LabelShapeType.POLYGON, isSubtract := false, isCache := true, worldPositions := some [(0, 0, 0), (1, 0, 0), (1, 1, 0)], feature := some ⟨⟨1, 0, 0⟩⟩, isAutoLabel := false }] }
    { id := 1, points := [(0, 0), (1, 0), (0, 1)], labelShapeType := LabelShapeType.POLYGON, isSubtract := false, isCache := true, worldPositions := some [(0, 0, 0), (1, 0, 0), (0, 1, 0)], feature := some ⟨⟨1, 0, 0⟩⟩, isAutoLabel := false }
    { id := 2, points := [(0, 0), (1, 0), (1, 1)], labelShapeType := LabelShapeType.POLYGON, isSubtract := false, isCache := true, worldPositions := some [(0, 0, 0), (1, 0, 0), (1, 1, 0)], feature := some ⟨⟨1, 0, 0⟩⟩, isAutoLabel := false }
    [(0, 0, 0), (1, 0, 0), (1, 1, 0)] rfl rfl rfl rfl (by simp)
  exact ⟨h.1, h.2.2.2.2.2.1⟩

/-- C9 (amended). For every in-range index `i`, `deleteLabel3D i` removes
exactly the label at index `i` by a single splice, leaving all other labels in
their original relative order, and emits no notification; for an out-of-range
index the state is unchanged. The `onDeleteShape` notification is produced by
the separate `cancelLabelRendering`, which emits the label at `i` without
removing it. -/
theorem delete_label_splices_without_notification :
    (∀ (s : DrawState) (i : ℤ), 0 ≤ i → i < (s.savedLabelPoints.length : ℤ) →
        (deleteLabel3D s i).savedLabelPoints
            = s.savedLabelPoints.take i.toNat ++ s.savedLabelPoints.drop (i.toNat + 1)
          ∧ (deleteLabel3D s i).emitted = s.emitted)
    ∧ (∀ (s : DrawState) (i : ℤ), ¬(0 ≤ i ∧ i < (s.savedLabelPoints.length : ℤ)) →
        deleteLabel3D s i = s)
    ∧ (∀ (s : DrawState) (i : ℤ), 0 ≤ i → i < (s.savedLabelPoints.length : ℤ) →
        (cancelLabelRendering s i).savedLabelPoints = s.savedLabelPoints
        ∧ ∃ label, s.savedLabelPoints.get? i.toNat = some label
            ∧ (cancelLabelRendering s i).emitted = s.emitted ++ [label]) := by
  refine ⟨?_, ?_, ?_⟩
  · intro s i h0 h1
    rw [deleteLabel3D, if_pos ⟨h0, h1⟩]
    exact ⟨List.eraseIdx_eq_take_drop_succ _ _, rfl⟩
  · intro s i h
    rw [deleteLabel3D, if_neg h]
  · intro s i h0 h1
    have hget : ∃ label, s.savedLabelPoints.get? i.toNat = some label := by
      rw [List.get?_eq_get (by omega : i.toNat < s.savedLabelPoints.length)]
      exact ⟨_, rfl⟩
    obtain ⟨label, hlabel⟩ := hget
    rw [cancelLabelRendering, if_neg (by omega), hlabel]
    exact ⟨rfl, label, rfl, rfl⟩

/-- Witness for C9 (amended): deleting index 0 of a one-label list empties it
and emits nothing; `cancelLabelRendering 0` emits that label and removes
nothing. -/
theorem delete_label_splices_without_notification_witness :
    ((deleteLabel3D { exDrawState with savedLabelPoints := [{ id := 1, points := [(0, 0), (1, 0), (0, 1)], labelShapeType := LabelShapeType.POLYGON, isSubtract := false, isCache := true, worldPositions := none, feature := none, isAutoLabel := false }] } 0).savedLabelPoints
        = ([] : List LabelPoint3D)
      ∧ (deleteLabel3D { exDrawState with savedLabelPoints := [{ id := 1, points := [(0, 0), (1, 0), (0, 1)], labelShapeType := LabelShapeType.POLYGON, isSubtract := false, isCache := true, worldPositions := none, feature := none, isAutoLabel := false }] } 0).emitted = [])
    ∧ (cancelLabelRendering { exDrawState with savedLabelPoints := [{ id := 1, points := [(0, 0), (1, 0), (0, 1)], labelShapeType := LabelShapeType.POLYGON, isSubtract := false, isCache := true, worldPositions := none, feature := none, isAutoLabel := false }] } 0).savedLabelPoints
        = [{ id := 1, points := [(0, 0), (1, 0), (0, 1)], labelShapeType := LabelShapeType.POLYGON, isSubtract := false, isCache := true, worldPositions := none, feature := none, isAutoLabel := false }] := by
  have h1 := delete_label_splices_without_notification.1
    { exDrawState with savedLabelPoints := [{ id := 1, points := [(0, 0), (1, 0), (0, 1)], labelShapeType := LabelShapeType.POLYGON, isSubtract := false, isCache := true, worldPositions := none, feature := none, isAutoLabel := false }] }
    0 (by norm_num) (by norm_num)
  have h2 := delete_label_splices_without_notification.2.2
    { exDrawState with savedLabelPoints := [{ id := 1, points := [(0, 0), (1, 0), (0, 1)], labelShapeType := LabelShapeType.POLYGON, isSubtract := false, isCache := true, worldPositions := none, feature := none, isAutoLabel := false }] }
    0 (by norm_num) (by norm_num)
  exact ⟨⟨h1.1, h1.2⟩, h2.1⟩

/-- Counterexample for C9 as stated: deleting the only label removes it but
emits NO deletion notification — `deleteLabel3D` never calls `emit`; the
notification lives only in `cancelLabelRendering`. -/
theorem delete_label_does_not_notify :
    ((deleteLabel3D { exDrawState with savedLabelPoints := [{ id := 1, points := [(0, 0), (1, 0), (0, 1)], labelShapeType := LabelShapeType.POLYGON, isSubtract := false, isCache := true, worldPositions := none, feature := none, isAutoLabel := false }] } 0).savedLabelPoints).length = 0
    ∧ (deleteLabel3D { exDrawState with savedLabelPoints := [{ id := 1, points := [(0, 0), (1, 0), (0, 1)], labelShapeType := LabelShapeType.POLYGON, isSubtract := false, isCache := true, worldPositions := none, feature := none, isAutoLabel := false }] } 0).emitted = [] := by
  constructor <;> rfl

/-- One contour-filter step only ever adds a polygon with more than 2 points. -/
lemma autoLabelContourStep_inv (acc : List (List (ℚ × ℚ))) (c : List (ℚ × ℚ))
    (hacc : ∀ q ∈ acc, 2 < q.length) :
    ∀ q ∈ autoLabelContourStep acc c, 2 < q.length := by
  intro q hq
  simp only [autoLabelContourStep] at hq
  by_cases h2 : 2 < (if (mergeAdjacentPoints c (1/1000)).length < 3 then c
      else mergeAdjacentPoints c (1/1000)).length
  · rw [if_pos h2] at hq
    rcases List.mem_append.mp hq with h | h
    · exact hacc q h
    · rw [List.mem_singleton] at h
      subst h
      exact h2
  · rw [if_neg h2] at hq
    exact hacc q hq

/-- Every polygon kept by the contour-filter fold has more than 2 points. -/
lemma foldl_autoLabelContourStep_inv :
    ∀ (cs acc : List (List (ℚ × ℚ))), (∀ q ∈ acc, 2 < q.length) →
      ∀ q ∈ cs.foldl autoLabelContourStep acc, 2 < q.length := by
  intro cs
  induction cs with
  | nil => intro acc h q hq; exact h q hq
  | cons c rest ih =>
    intro acc h q hq
    exact ih _ (autoLabelContourStep_inv acc c h) q (by simpa using hq)

/-- C10. Every label appended to the caller-owned label list or to the
auto-label candidate cache has at least 3 points: `handleAutoLabelResult`
produces only candidates with at least 3 points (after simplification or
fallback to the unsimplified contour), and `finishPolygonDrawing` — committing
candidates in auto-label mode or closing a manual drawing — preserves the
invariant on the label list. -/
theorem persisted_labels_have_three_points :
    (∀ (s : DrawState) (contours : List (List (ℚ × ℚ))) (f : Feature) (now : ℕ),
        ∀ l ∈ (handleAutoLabelResult s contours f now).cacheAutoLabel,
          3 ≤ l.points.length)
    ∧ (∀ (s : DrawState) (f : Feature) (b : Bool) (pt : PolygonType3D) (now : ℕ)
        (sf : DrawState),
        (∀ l ∈ s.labelPoints3D, 3 ≤ l.points.length) →
        (∀ l ∈ s.cacheAutoLabel, 3 ≤ l.points.length) →
        finishPolygonDrawing s f b pt now = some sf →
        ∀ l ∈ sf.labelPoints3D, 3 ≤ l.points.length) := by
  constructor
  · intro s contours f now l hl
    simp only [handleAutoLabelResult] at hl
    rw [List.mem_map] at hl
    obtain ⟨iv, hiv, rfl⟩ := hl
    have hmem : iv.2 ∈ handleAutoLabelResultContours contours :=
      List.get?_mem (List.mem_enum_iff_get?.mp hiv)
    have h2 := foldl_autoLabelContourStep_inv contours [] (by simp) iv.2 hmem
    simpa using Nat.succ_le_of_lt h2
  · intro s f b pt now sf hmain hcache hfin l hl
    by_cases hauto : s.isAutoLabeling = true ∧ pt = PolygonType3D.AUTO_LABEL
    · rw [finishPolygonDrawing, if_pos hauto] at hfin
      obtain rfl := Option.some.inj hfin
      simp only [List.mem_append] at hl
      rcases hl with h | h
      · exact hmain l h
      · exact hcache l h
    · rw [finishPolygonDrawing, if_neg hauto] at hfin
      by_cases hdr : s.isDrawing = false
      · rw [if_pos hdr] at hfin
        obtain rfl := Option.some.inj hfin
        exact hmain l hl
      · rw [if_neg hdr] at hfin
        cases hcur : s.currentPoints with
        | none =>
          rw [hcur] at hfin
          exact absurd hfin (by simp)
        | some cur =>
          rw [hcur] at hfin
          dsimp only at hfin
          by_cases hlen : cur.length < 3
          · rw [if_pos hlen] at hfin
            obtain rfl := Option.some.inj hfin
            exact hmain l hl
          · rw [if_neg hlen] at hfin
            obtain rfl := Option.some.inj hfin
            simp only [List.mem_append, List.mem_singleton] at hl
            rcases hl with h | h
            · exact hmain l h
            · subst h
              simp only [worldPointToImageCoords, List.length_map]
              omega

/-- Witness for C10: a single triangle contour yields one candidate with 3
points, and the example finish run of C2 only ever appends 3-point labels. -/
theorem persisted_labels_have_three_points_witness :
    ∀ l ∈ (handleAutoLabelResult exDrawState
        [[(1/10, 1/10), (2/10, 1/10), (3/20, 2/10)]] ⟨⟨1, 0, 0⟩⟩ 0).cacheAutoLabel,
      3 ≤ l.points.length :=
  persisted_labels_have_three_points.1 exDrawState
    [[(1/10, 1/10), (2/10, 1/10), (3/20, 2/10)]] ⟨⟨1, 0, 0⟩⟩ 0

/-- Polarity of an auto-label click. -/
inductive AutoLabelPos where
  | Positive
  | Negative
deriving DecidableEq, Repr

/-- One auto-label request: the clicked world point, its polarity, and the
image id passed to the inference service. -/
structure AutoReq where
  worldPoint : ℚ × ℚ × ℚ
  pos : AutoLabelPos
  imageId : ℕ
deriving DecidableEq, Repr

/-- The asynchronous auto-label protocol state of the hook. The debounce timer
holds the request of the pending trailing-edge call; `controllers` holds the
abort flag of every `AbortController` ever created (`activeController`
indexes the current one, mirroring `autoLabelController.value`);
`inflightReq` is the request whose `InferApi.autoLabel` call is awaiting its
response; `inferCalls` logs every inference request issued; `applied` logs
every response whose contours were handed to `handleAutoLabelResult`.
`meshLoaded` covers the `mesh.value`/`drawingGroup.value` guard. -/
structure AutoLabelState where
  coord : CoordState
  meshLoaded : Bool
  isDrawing : Bool
  isAutoLabeling : Bool
  debounceTimer : Option AutoReq
  controllers : List Bool
  activeController : Option ℕ
  inflightReq : Option AutoReq
  inferCalls : List AutoReq
  applied : List AutoReq
deriving DecidableEq, Repr

/-- Embedding of `cancelAutoLabel` (useLabelingTwoFiveD.ts:1473-1485): abort
the active controller, null it, clear the debounce timer, drop the
auto-labeling flag. -/
def cancelAutoLabel (s : AutoLabelState) : AutoLabelState :=
  { s with
    controllers :=
      match s.activeController with
      | some c => s.controllers.set c true
      | none => s.controllers,
    activeController := none,
    debounceTimer := none,
    isAutoLabeling := false }

/-- Embedding of the synchronous prefix of `performAutoLabel`
(useLabelingTwoFiveD.ts:985-1001), up to and including issuing the
`InferApi.autoLabel` call: raise `isAutoLabeling`, create a fresh (unaborted)
controller, and — unless the `imageCoords` conversion returns null, in which
case the `finally` clause just nulls the controller — record the issued
inference call as in flight. The click-mark drawing is a canvas side effect
not modelled. -/
def performAutoLabel (s : AutoLabelState) (req : AutoReq) : AutoLabelState :=
  let s1 := { s with isAutoLabeling := true,
                     controllers := s.controllers ++ [false],
                     activeController := some s.controllers.length }
  match worldToCanvasCoords s.coord req.worldPoint.1 req.worldPoint.2.1
      CoordMode.imageCoords with
  | none => { s1 with activeController := none }
  | some _ => { s1 with inferCalls := s1.inferCalls ++ [req], inflightReq := some req }

/-- Embedding of `autoLabel3D` (useLabelingTwoFiveD.ts:931-952): guard on
mesh/drawing-group/imageId and on an active drawing; cancel any current
auto-label action; clear and re-arm the 150 ms debounce timer with this
request. (The `labelingImageType` bookkeeping is omitted.) -/
def autoLabel3D (s : AutoLabelState) (req : AutoReq) : AutoLabelState :=
  if s.meshLoaded = false ∨ req.imageId = 0 then s
  else if s.isDrawing = true then s
  else
    let s1 := if s.isAutoLabeling = true then cancelAutoLabel s else s
    { s1 with debounceTimer := some req }

/-- The debounce timer elapsing: run `performAutoLabel` for the armed request,
if any. -/
def fireDebounceTimer (s : AutoLabelState) : AutoLabelState :=
  match s.debounceTimer with
  | none => s
  | some req => performAutoLabel { s with debounceTimer := none } req

/-- Embedding of the continuation of `performAutoLabel` after
`await InferApi.autoLabel` resolves (useLabelingTwoFiveD.ts:1001-1019): check
the abort flag of the CURRENT `autoLabelController.value`; if aborted, apply
nothing; otherwise hand the contours over (logged in `applied`); the `finally`
clause nulls the controller either way. -/
def respondAutoLabel (s : AutoLabelState) : AutoLabelState :=
  match s.inflightReq with
  | none => s
  | some req =>
    let aborted :=
      match s.activeController with
      | some c => s.controllers.getD c false
      | none => false
    if aborted = true then { s with inflightReq := none, activeController := none }
    else { s with applied := s.applied ++ [req], inflightReq := none,
                  activeController := none }

/-- Reading the freshly appended element of a list. -/
lemma getD_append_length (l : List Bool) (b : Bool) :
    (l ++ [b]).getD l.length false = b := by
  induction l with
  | nil => rfl
  | cons x xs ih =>
    simp only [List.cons_append, List.length_cons, List.getD_cons_succ]
    exact ih

/-- C3. If `autoLabel3D` is invoked twice within the debounce window (no
timer fire between the calls), exactly one inference call is issued — the one
for the second invocation — and the first invocation never applies contour
results: even after the response arrives, only the second request's result is
applied. A second invocation made while a request is in flight first aborts
the in-flight controller via the cancellation token (inside `cancelAutoLabel`)
before arming the new debounce timer. -/
theorem autoLabel_debounce_and_cancel :
    (∀ (s0 : AutoLabelState) (r1 r2 : AutoReq),
        s0.meshLoaded = true → s0.isDrawing = false → s0.isAutoLabeling = false →
        s0.inferCalls = [] → s0.applied = [] → r1.imageId ≠ 0 → r2.imageId ≠ 0 →
        r1 ≠ r2 →
        (worldToCanvasCoords s0.coord r2.worldPoint.1 r2.worldPoint.2.1
          CoordMode.imageCoords).isSome = true →
        (fireDebounceTimer (autoLabel3D (autoLabel3D s0 r1) r2)).inferCalls = [r2]
        ∧ (respondAutoLabel
            (fireDebounceTimer (autoLabel3D (autoLabel3D s0 r1) r2))).applied = [r2]
        ∧ r1 ∉ (respondAutoLabel
            (fireDebounceTimer (autoLabel3D (autoLabel3D s0 r1) r2))).applied)
    ∧ (∀ (s : AutoLabelState) (r : AutoReq) (c : ℕ),
        s.meshLoaded = true → s.isDrawing = false → s.isAutoLabeling = true →
        s.activeController = some c → c < s.controllers.length → r.imageId ≠ 0 →
        (autoLabel3D s r).controllers.getD c false = true
        ∧ (autoLabel3D s r).debounceTimer = some r
        ∧ (autoLabel3D s r).activeController = none) := by
  constructor
  · intro s0 r1 r2 hm hd ha hinfer happl hr1 hr2 hne hconv
    obtain ⟨ic, hic⟩ := Option.isSome_iff_exists.mp hconv
    have e1 : autoLabel3D s0 r1 = { s0 with debounceTimer := some r1 } := by
      simp [autoLabel3D, hm, hd, ha, hr1]
    have e2 : autoLabel3D { s0 with debounceTimer := some r1 } r2 =
        { s0 with debounceTimer := some r2 } := by
      simp [autoLabel3D, hm, hd, ha, hr2]
    have e3 : fireDebounceTimer { s0 with debounceTimer := some r2 } =
        { s0 with debounceTimer := none, isAutoLabeling := true,
                  controllers := s0.controllers ++ [false],
                  activeController := some s0.controllers.length,
                  inferCalls := s0.inferCalls ++ [r2], inflightReq := some r2 } := by
      simp [fireDebounceTimer, performAutoLabel, hic]
    rw [e1, e2, e3]
    refine ⟨by simp [hinfer], ?_, ?_⟩
    · simp [respondAutoLabel, getD_append_length, happl]
    · simp [respondAutoLabel, getD_append_length, happl]
      exact hne
  · intro s r c hm hd ha hac hc hr
    have e : autoLabel3D s r =
        { s with controllers := s.controllers.set c true, activeController := none,
                 debounceTimer := some r, isAutoLabeling := false } := by
      simp [autoLabel3D, hm, hd, ha, hr, cancelAutoLabel, hac]
    rw [e]
    refine ⟨?_, rfl, rfl⟩
    rw [getD_set, if_pos ⟨rfl, hc⟩]

/-- Witness for C3: the debounce scenario run from a concrete ready state with
two distinct concrete click requests. -/
theorem autoLabel_debounce_and_cancel_witness :
    (fireDebounceTimer (autoLabel3D (autoLabel3D
        ⟨⟨some ⟨1, 1, 2⟩, some ⟨-1, 1, -1, 1⟩, some [0, 0, 0, 0], true, true, true, 1024, 1024, 2, ⟨0, 0, 1, 1, true⟩⟩, true, false, false, none, [], none, none, [], []⟩
        ⟨(0, 0, 0), AutoLabelPos.Positive, 7⟩) ⟨(1, 0, 0), AutoLabelPos.Negative, 7⟩)).inferCalls
      = [⟨(1, 0, 0), AutoLabelPos.Negative, 7⟩] :=
  (autoLabel_debounce_and_cancel.1
    ⟨⟨some ⟨1, 1, 2⟩, some ⟨-1, 1, -1, 1⟩, some [0, 0, 0, 0], true, true, true, 1024, 1024, 2, ⟨0, 0, 1, 1, true⟩⟩, true, false, false, none, [], none, none, [], []⟩
    ⟨(0, 0, 0), AutoLabelPos.Positive, 7⟩ ⟨(1, 0, 0), AutoLabelPos.Negative, 7⟩
    rfl rfl rfl rfl rfl (by norm_num) (by norm_num) (by simp)
    (by norm_num [worldToCanvasCoords])).1

end TwoFiveD
